import Mathlib

/-!
Verification of the lxi-tools screenshot plugin core
(`src/plugins/screenshot_siglent-sdm3000.c`, which holds both the Siglent
SDM3000 plugin and the shared screenshot plugin registry / selector code).

The C code is shallowly embedded: the plugin registry is a `List Plugin`,
the POSIX regex engine and the LXI transport (libc / liblxi, external to
the repository) are abstracted as parameter structures, transport activity
is recorded as an explicit trace, and machine `int` values are `Int`.
-/

namespace LxiScreenshot

/-- ID_LENGTH_MAX from the source (65536). -/
def ID_LENGTH_MAX : Nat := 65536

/-- IMAGE_SIZE_MAX from the Siglent plugin source (0x400000 = 4 MB). -/
def IMAGE_SIZE_MAX : Nat := 4194304

/-- The NUL terminator byte written by the trailing-newline strip. -/
def NUL : Char := Char.ofNat 0

/-- Abstraction of the external POSIX regex engine used by `regex_match`:
`compile pat` tells whether `regcomp(&regex, pat, REG_EXTENDED | REG_NOSUB)`
succeeds, and `exec pat str` tells whether `regexec` reports a (search-style,
unanchored) match of the compiled pattern somewhere in `str`.  `regcomp` and
`regexec` are libc collaborators, not repository code, so they stay abstract. -/
structure RegexEngine where
  compile : String → Bool
  exec : String → String → Bool

/-- regex_match from the source (lines 174-189): a pattern that fails to
compile is reported as "no match" (`return false`); otherwise the result is
whether `regexec` matched. -/
def regex_match (eng : RegexEngine) (string pattern : String) : Bool :=
  if eng.compile pattern then eng.exec pattern string else false

/-- Tokenization of a character buffer by a delimiter predicate: the maximal
non-delimiter runs, in order (`acc` holds the currently open token,
reversed).  Leading, trailing and repeated delimiters yield no tokens —
exactly the behaviour of a `strtok` walk over the buffer. -/
def tokensAux (delim : Char → Bool) : List Char → List Char → List (List Char)
  | [], acc => if acc = [] then [] else [acc.reverse]
  | c :: rest, acc =>
    if delim c then
      (if acc = [] then tokensAux delim rest []
       else acc.reverse :: tokensAux delim rest [])
    else tokensAux delim rest (c :: acc)

/-- The token walk `strtok(regex_buffer, " ")` performs over a pattern
specification (source lines 328-334): maximal runs of non-space characters,
in order; the delimiter set is the single space character. -/
def strtokTokens (s : String) : List String :=
  (tokensAux (fun c => c == ' ') s.data []).map (fun t => String.mk t)

/-- Modelled from the spec: the claim side of C2 reads the pattern
specification as a list of whitespace-separated fragments (any whitespace
character separating), to be compared with the source's space-only strtok
split. -/
def wsTokens (s : String) : List String :=
  (tokensAux Char.isWhitespace s.data []).map (fun t => String.mk t)

/-- One call into the external LXI transport, with the timeout value the
code passed to it. -/
inductive TransportCall where
  | connect (address : String) (timeout : Int)
  | send (device : Nat) (command : String) (timeout : Int)
  | receive (device : Nat) (maxBytes : Nat) (timeout : Int)
  | disconnect (device : Nat)
  deriving DecidableEq

/-- Abstraction of the external LXI transport (liblxi): `connect` yields a
device handle or fails (`LXI_ERROR`), `receive device maxBytes timeout`
yields the received bytes or fails (negative length). -/
structure LxiEnv where
  connect : String → Int → Option Nat
  receive : Nat → Nat → Int → Option (List Char)

/-- The trailing-newline strip of get_device_id (source lines 167-169):
`if (id[length-1] == '\n') id[length-1] = 0;` — when the last received byte
is a newline it is overwritten with a NUL terminator.  For an empty buffer
the source reads `id[-1]`, out of the received data; see
`strip_read_index` below. -/
def stripTrailingNewline (buf : List Char) : List Char :=
  if buf.getLast? = some '\n' then buf.set (buf.length - 1) NUL else buf

/-- The value of a C string buffer: the characters before the first NUL. -/
def cstrOf (buf : List Char) : List Char :=
  buf.takeWhile (fun c => c != NUL)

/-- The identity string get_device_id leaves in `id`: the received bytes
after the trailing-newline strip, read as a C string. -/
def identityOf (buf : List Char) : List Char :=
  cstrOf (stripTrailingNewline buf)

/-- get_device_id from the source (lines 144-172): connect, send "*IDN?",
receive up to ID_LENGTH_MAX bytes, strip a trailing newline.  Returns the
resulting identity (`none` on the two error paths, which print and return 1)
together with the trace of transport calls made, each with the timeout value
the code passed. -/
def get_device_id (env : LxiEnv) (address : String) (timeout : Int) :
    Option (List Char) × List TransportCall :=
  match env.connect address timeout with
  | none => (none, [TransportCall.connect address timeout])
  | some device =>
    let calls := [TransportCall.connect address timeout,
                  TransportCall.send device "*IDN?" timeout,
                  TransportCall.receive device ID_LENGTH_MAX timeout]
    match env.receive device ID_LENGTH_MAX timeout with
    | none => (none, calls)
    | some data => (some (identityOf data), calls)

/-- struct screenshot_plugin: name, description, optional identity-matching
regex specification, and the screenshot handler.  The handler is modelled as
a function of the transport environment, the address and the timeout,
returning its int result and the trace of transport calls it made. -/
structure Plugin where
  name : String
  description : String
  regex : Option String
  screenshot : LxiEnv → String → Int → Int × List TransportCall

/-- The default used for out-of-range registry reads: an empty slot.  Its
score is 0 and it is never consulted on in-range paths. -/
def nullPlugin : Plugin := ⟨"", "", none, fun _ _ _ => (0, [])⟩

/-- The inner token loop of the selector (source lines 329-344): walk the
strtok tokens of a pattern specification, incrementing `match_count` for
each token that regex_match accepts. -/
def matchLoop (eng : RegexEngine) (ident : String) : List String → Nat → Nat
  | [], match_count => match_count
  | t :: ts, match_count =>
      matchLoop eng ident ts (if regex_match eng ident t then match_count + 1 else match_count)

/-- The score of one descriptor against an identity string: 0 when the
descriptor has no `.regex` entry (the selector skips it), otherwise the
number of its strtok tokens that match. -/
def scoreP (eng : RegexEngine) (p : Plugin) (ident : String) : Nat :=
  match p.regex with
  | none => 0
  | some spec => matchLoop eng ident (strtokTokens spec) 0

/-- The selector's scan (source lines 318-358): walk the registered plugins
in order carrying `plugin_winner` (here `winner`) and `match_count_max`
(here `best`); a plugin with no `.regex` entry is skipped; a plugin becomes
the winner only when its `match_count` is strictly greater than `best`. -/
def selectLoop (eng : RegexEngine) (ident : String) :
    List Plugin → Nat → Option Nat → Nat → Option Nat × Nat
  | [], _, winner, best => (winner, best)
  | p :: ps, i, winner, best =>
    match p.regex with
    | none => selectLoop eng ident ps (i + 1) winner best
    | some spec =>
      let match_count := matchLoop eng ident (strtokTokens spec) 0
      if match_count > best then
        selectLoop eng ident ps (i + 1) (some i) match_count
      else
        selectLoop eng ident ps (i + 1) winner best

/-- The index of the autodetected plugin (`plugin_winner` in the source),
or `none` when no plugin scored above 0 (the source's -1). -/
def plugin_winner (eng : RegexEngine) (registry : List Plugin) (ident : String) :
    Option Nat :=
  (selectLoop eng ident registry 0 none 0).1

/-- Score of the descriptor at index `j` of the registry (0 out of range). -/
def scoreAt (eng : RegexEngine) (registry : List Plugin) (ident : String) (j : Nat) : Nat :=
  scoreP eng (registry.getD j nullPlugin) ident

/-- The explicit-name lookup loop (source lines 373-381): first registered
plugin whose name compares equal (strcmp, i.e. case-sensitive, exact). -/
def findByName : List Plugin → String → Option Plugin
  | [], _ => none
  | p :: ps, plugin_name =>
      if p.name == plugin_name then some p else findByName ps plugin_name

/-- Outcome of one `screenshot` invocation.  The four `fatal*` outcomes model
the `exit(EXIT_FAILURE)` paths (each after printing a one-line diagnostic);
`done ret` is the return value of the dispatched plugin handler. -/
inductive ScreenshotOutcome where
  | fatalMissingAddress
  | fatalIdFailure
  | fatalNoAutodetect
  | fatalUnknownPlugin
  | done (ret : Int)
  deriving DecidableEq

/-- screenshot from the source (lines 289-392).  Note the autodetect branch
calls `get_device_id(address, id, timeout != 0)`: the C expression
`timeout != 0` (value 1 or 0) is what the identity query receives as its
timeout, while the dispatched plugin receives `timeout` itself.  The second
component is the trace of all transport calls made. -/
def screenshot (eng : RegexEngine) (env : LxiEnv) (plugin_list : List Plugin)
    (address plugin_name : String) (timeout : Int) :
    ScreenshotOutcome × List TransportCall :=
  if address.length = 0 then
    (ScreenshotOutcome.fatalMissingAddress, [])
  else if plugin_name.length = 0 then
    match get_device_id env address (if timeout ≠ 0 then 1 else 0) with
    | (none, calls) => (ScreenshotOutcome.fatalIdFailure, calls)
    | (some ident, calls) =>
      match plugin_winner eng plugin_list (String.mk ident) with
      | none => (ScreenshotOutcome.fatalNoAutodetect, calls)
      | some w =>
        let p := plugin_list.getD w nullPlugin
        let r := p.screenshot env address timeout
        (ScreenshotOutcome.done r.1, calls ++ r.2)
  else
    match findByName plugin_list plugin_name with
    | none => (ScreenshotOutcome.fatalUnknownPlugin, [])
    | some p =>
      let r := p.screenshot env address timeout
      (ScreenshotOutcome.done r.1, r.2)

/-- siglent_sdm3000_screenshot from the source (lines 43-79): connect, send
"scdp", receive up to IMAGE_SIZE_MAX bytes, dump the image to file, free,
disconnect.  Every transport call receives the handler's own `timeout`
argument.  (The file dump is local I/O, not a transport call.) -/
def siglent_sdm3000_screenshot (env : LxiEnv) (address : String) (timeout : Int) :
    Int × List TransportCall :=
  match env.connect address timeout with
  | none => (1, [TransportCall.connect address timeout])
  | some device =>
    let calls := [TransportCall.connect address timeout,
                  TransportCall.send device "scdp" timeout,
                  TransportCall.receive device IMAGE_SIZE_MAX timeout]
    match env.receive device IMAGE_SIZE_MAX timeout with
    | none => (1, calls)
    | some _ => (0, calls ++ [TransportCall.disconnect device])

/-- The Siglent SDM3000 plugin descriptor from the source (lines 82-88). -/
def siglent_sdm3000 : Plugin :=
  ⟨"siglent-sdm3000",
   "Siglent SDM 3000/3000X series digital multimeter",
   some "SIGLENT TECHNOLOGIES Siglent Technologies SDM3...",
   fun env address timeout => siglent_sdm3000_screenshot env address timeout⟩

/-- A run of `n` space characters (the `putchar(' ')` padding loops). -/
def spaces (n : Nat) : String := String.mk (List.replicate n ' ')

/-- The `length_max` computation of screenshot_list_plugins (source lines
256-262): running maximum of the registered name lengths, updated by
`if (length_max < length) length_max = length`. -/
def length_max_of (plugin_list : List Plugin) : Nat :=
  plugin_list.foldl
    (fun length_max p =>
      if length_max < p.name.length then p.name.length else length_max) 0

/-- One body line of screenshot_list_plugins (source lines 271-274):
`length_max - strlen(name)` padding spaces, the name, three spaces, the
description. -/
def plugin_line (length_max : Nat) (p : Plugin) : String :=
  spaces (length_max - p.name.length) ++ p.name ++ "   " ++ p.description

/-- The body loop of screenshot_list_plugins: one line per registered
plugin, in registration order. -/
def plugin_lines (length_max : Nat) : List Plugin → List String
  | [] => []
  | p :: ps => plugin_line length_max p :: plugin_lines length_max ps

/-- screenshot_list_plugins from the source (lines 250-277), as the list of
lines it prints: the header `Name   Description` preceded by
`length_max - 4` spaces (the C `for (j=0; j<(length_max-4); j++)` loop runs
zero times when that int is negative, exactly truncated Nat subtraction),
then one line per plugin. -/
def screenshot_list_plugins (plugin_list : List Plugin) : List String :=
  (spaces (length_max_of plugin_list - 4) ++ "Name   Description") ::
    plugin_lines (length_max_of plugin_list) plugin_list

/-- Longest registered name length, as the spec words it (maximum of the
name lengths). -/
def longestName (plugin_list : List Plugin) : Nat :=
  (plugin_list.map (fun p => p.name.length)).foldr max 0

/-- Prefix-matching helper for the concrete matcher below. -/
def leadMatch : List Char → List Char → Bool
  | [], _ => true
  | _ :: _, [] => false
  | c :: p, d :: t => c == d && leadMatch p t

/-- Substring search for the concrete matcher below. -/
def subMatch (p : List Char) : List Char → Bool
  | [] => leadMatch p []
  | d :: rest => leadMatch p (d :: rest) || subMatch p rest

/-- Modelled from the spec: a concrete instance of the abstract regex
engine, faithful to POSIX `regexec` search-style (unanchored) matching for
pattern fragments that contain no regex metacharacters — for such literal
fragments a match is exactly substring containment, and compilation always
succeeds.  Used to evaluate the selector on concrete inputs. -/
def substrEngine : RegexEngine :=
  ⟨fun _ => true, fun pattern string => subMatch pattern.data string.data⟩

/-- The buffer index the trailing-newline strip reads (source line 168 reads
`id[length-1]`), as a function of the length `lxi_receive` returned. -/
def strip_read_index (length : Int) : Int := length - 1

/-- The receive error check of get_device_id (source line 161): only a
negative length is treated as an error. -/
def receive_length_error (length : Int) : Bool := decide (length < 0)

/-- An access at index `idx` lies within received data of length `len`. -/
def accessInReceivedData (idx len : Int) : Prop := 0 ≤ idx ∧ idx < len

/-! ### Helper lemmas about the matcher and the selection loop -/

theorem matchLoop_eq_countP (eng : RegexEngine) (ident : String) :
    ∀ (l : List String) (n : Nat),
      matchLoop eng ident l n = n + l.countP (fun t => regex_match eng ident t) := by
  intro l
  induction l with
  | nil => intro n; simp [matchLoop]
  | cons t ts ih =>
    intro n
    cases hr : regex_match eng ident t with
    | true => simp [matchLoop, hr, ih, List.countP_cons]; omega
    | false => simp [matchLoop, hr, ih, List.countP_cons]

theorem scoreP_nullPlugin (eng : RegexEngine) (ident : String) :
    scoreP eng nullPlugin ident = 0 := rfl

theorem scoreAt_of_length_le (eng : RegexEngine) (registry : List Plugin)
    (ident : String) (j : Nat) (h : registry.length ≤ j) :
    scoreAt eng registry ident j = 0 := by
  unfold scoreAt
  rw [List.getD_eq_default _ _ h]
  exact scoreP_nullPlugin eng ident

/-- Invariant of the selector's scan: walking the suffix `l` of the registry
from index `i` with accumulated winner `w` and best score `b` (where `s`
gives the score of every registry index), the final best bounds every
visited score, a `none` winner forces best 0, and a `some` winner is an
in-range index holding the final best, positive, with every earlier index
scoring strictly below it. -/
theorem selectLoop_spec (eng : RegexEngine) (ident : String) (s : Nat → Nat) :
    ∀ (l : List Plugin) (i : Nat) (w : Option Nat) (b : Nat),
      (∀ k, s (i + k) = scoreP eng (l.getD k nullPlugin) ident) →
      (∀ j, j < i → s j ≤ b) →
      (w = none → b = 0) →
      (∀ w₀, w = some w₀ → w₀ < i ∧ s w₀ = b ∧ 0 < b ∧ ∀ j, j < w₀ → s j < b) →
      (∀ j, j < i + l.length → s j ≤ (selectLoop eng ident l i w b).2) ∧
      ((selectLoop eng ident l i w b).1 = none → (selectLoop eng ident l i w b).2 = 0) ∧
      (∀ w₀, (selectLoop eng ident l i w b).1 = some w₀ →
        w₀ < i + l.length ∧ s w₀ = (selectLoop eng ident l i w b).2 ∧
        0 < (selectLoop eng ident l i w b).2 ∧
        ∀ j, j < w₀ → s j < (selectLoop eng ident l i w b).2) := by
  intro l
  induction l with
  | nil =>
    intro i w b Hs Hpre Hnone Hsome
    simp only [selectLoop, List.length_nil, Nat.add_zero]
    exact ⟨Hpre, Hnone, Hsome⟩
  | cons p ps ih =>
    intro i w b Hs Hpre Hnone Hsome
    have hsi : s i = scoreP eng p ident := by
      have := Hs 0
      simpa using this
    have Hs' : ∀ k, s ((i + 1) + k) = scoreP eng (ps.getD k nullPlugin) ident := by
      intro k
      have harith : (i + 1) + k = i + (k + 1) := by omega
      rw [harith]
      have := Hs (k + 1)
      simpa using this
    have hlen : i + (p :: ps).length = (i + 1) + ps.length := by
      simp [List.length_cons]; omega
    have Hsome' : ∀ w₀, w = some w₀ →
        w₀ < i + 1 ∧ s w₀ = b ∧ 0 < b ∧ ∀ j, j < w₀ → s j < b := by
      intro w₀ hw₀
      obtain ⟨h1, h2, h3, h4⟩ := Hsome w₀ hw₀
      exact ⟨by omega, h2, h3, h4⟩
    cases hreg : p.regex with
    | none =>
      have hps : scoreP eng p ident = 0 := by unfold scoreP; rw [hreg]
      have hstep :
          selectLoop eng ident (p :: ps) i w b = selectLoop eng ident ps (i + 1) w b := by
        simp [selectLoop, hreg]
      rw [hstep, hlen]
      refine ih (i + 1) w b Hs' ?_ Hnone Hsome'
      intro j hj
      rcases Nat.lt_or_ge j i with h | h
      · exact Hpre j h
      · have : j = i := by omega
        rw [this, hsi, hps]
        exact Nat.zero_le b
    | some spec =>
      have hps : scoreP eng p ident = matchLoop eng ident (strtokTokens spec) 0 := by
        unfold scoreP; rw [hreg]
      by_cases hgt : matchLoop eng ident (strtokTokens spec) 0 > b
      · have hstep :
            selectLoop eng ident (p :: ps) i w b =
              selectLoop eng ident ps (i + 1) (some i)
                (matchLoop eng ident (strtokTokens spec) 0) := by
          simp [selectLoop, hreg, hgt]
        rw [hstep, hlen]
        refine ih (i + 1) (some i) (matchLoop eng ident (strtokTokens spec) 0) Hs' ?_ ?_ ?_
        · intro j hj
          rcases Nat.lt_or_ge j i with h | h
          · exact Nat.le_of_lt (Nat.lt_of_le_of_lt (Hpre j h) hgt)
          · have : j = i := by omega
            rw [this, hsi, hps]
        · intro h; cases h
        · intro w₀ hw₀
          have hinj : i = w₀ := by injection hw₀
          subst hinj
          refine ⟨by omega, by rw [hsi, hps], by omega, ?_⟩
          intro j hj
          exact Nat.lt_of_le_of_lt (Hpre j hj) hgt
      · have hstep :
            selectLoop eng ident (p :: ps) i w b = selectLoop eng ident ps (i + 1) w b := by
          simp [selectLoop, hreg, hgt]
        rw [hstep, hlen]
        refine ih (i + 1) w b Hs' ?_ Hnone Hsome'
        intro j hj
        rcases Nat.lt_or_ge j i with h | h
        · exact Hpre j h
        · have : j = i := by omega
          rw [this, hsi, hps]
          omega

/-- Top-level reading of the scan: a selected winner is in range, has a
positive score, no registered descriptor scores above it, and every
earlier-registered descriptor scores strictly below it. -/
theorem plugin_winner_spec (eng : RegexEngine) (registry : List Plugin)
    (ident : String) (w : Nat) (hw : plugin_winner eng registry ident = some w) :
    w < registry.length ∧ 0 < scoreAt eng registry ident w ∧
    (∀ j, scoreAt eng registry ident j ≤ scoreAt eng registry ident w) ∧
    (∀ j, j < w → scoreAt eng registry ident j < scoreAt eng registry ident w) := by
  have H := selectLoop_spec eng ident (scoreAt eng registry ident) registry 0 none 0
    (by intro k; simp [scoreAt]) (by intro j hj; omega) (fun _ => rfl)
    (by intro w₀ h; cases h)
  obtain ⟨Hbound, _, Hwin⟩ := H
  unfold plugin_winner at hw
  obtain ⟨hrange, hsw, hpos, hearlier⟩ := Hwin w hw
  rw [← hsw] at Hbound hpos hearlier
  refine ⟨by simpa using hrange, hpos, ?_, hearlier⟩
  intro j
  rcases Nat.lt_or_ge j registry.length with h | h
  · exact Hbound j (by simpa using h)
  · rw [scoreAt_of_length_le eng registry ident j h]
    exact Nat.zero_le _

/-- When every registered descriptor scores 0, the scan selects nothing. -/
theorem plugin_winner_eq_none (eng : RegexEngine) (registry : List Plugin)
    (ident : String)
    (h : ∀ j, j < registry.length → scoreAt eng registry ident j = 0) :
    plugin_winner eng registry ident = none := by
  cases hw : plugin_winner eng registry ident with
  | none => rfl
  | some w =>
    exfalso
    obtain ⟨hrange, hpos, _, _⟩ := plugin_winner_spec eng registry ident w hw
    rw [h w hrange] at hpos
    exact Nat.lt_irrefl 0 hpos

/-! ### Helper lemmas about the newline strip, the lookup and the listing -/

theorem cstrOf_of_no_nul (l : List Char) (h : NUL ∉ l) : cstrOf l = l := by
  unfold cstrOf
  apply List.takeWhile_eq_self_iff.mpr
  intro c hc
  have hcn : c ≠ NUL := fun he => h (he ▸ hc)
  simpa using hcn

theorem cstrOf_set_last (l : List Char) (hne : l ≠ []) (h : NUL ∉ l) :
    cstrOf (l.set (l.length - 1) NUL) = l.dropLast := by
  induction l with
  | nil => cases hne rfl
  | cons c t ih =>
    cases t with
    | nil =>
      show cstrOf ([c].set 0 NUL) = []
      rw [List.set_cons_zero]
      unfold cstrOf
      rw [List.takeWhile_cons]
      simp
    | cons d rest =>
      have hc : c ≠ NUL := fun he =>
        h (by rw [he]; exact List.mem_cons_self NUL (d :: rest))
      have hlen : (c :: d :: rest).length - 1 = ((d :: rest).length - 1) + 1 := by
        simp [List.length_cons]
      rw [hlen, List.set_cons_succ]
      unfold cstrOf
      rw [List.takeWhile_cons]
      have hcb : (c != NUL) = true := by simpa using hc
      rw [hcb]
      simp only [if_true]
      have ht : NUL ∉ d :: rest := fun hm => h (List.mem_cons_of_mem c hm)
      have := ih (by simp) ht
      unfold cstrOf at this
      rw [this, List.dropLast_cons₂]

theorem findByName_eq_find? (plugin_name : String) :
    ∀ plugin_list : List Plugin,
      findByName plugin_list plugin_name =
        plugin_list.find? (fun p => p.name == plugin_name) := by
  intro plugin_list
  induction plugin_list with
  | nil => rfl
  | cons p ps ih =>
    by_cases h : p.name == plugin_name
    · simp [findByName, List.find?, h]
    · simp only [Bool.not_eq_true] at h
      simp [findByName, List.find?, h, ih]

theorem spaces_length (n : Nat) : (spaces n).length = n := by
  show (List.replicate n ' ').length = n
  exact List.length_replicate n ' '

theorem longestName_cons (p : Plugin) (ps : List Plugin) :
    longestName (p :: ps) = max p.name.length (longestName ps) := by
  simp [longestName]

theorem length_max_of_eq (plugin_list : List Plugin) :
    length_max_of plugin_list = longestName plugin_list := by
  have key : ∀ (l : List Plugin) (a : Nat),
      l.foldl (fun m p => if m < p.name.length then p.name.length else m) a =
        max a (longestName l) := by
    intro l
    induction l with
    | nil => intro a; simp [longestName]
    | cons p ps ih =>
      intro a
      rw [List.foldl_cons, ih, longestName_cons]
      have hif : (if a < p.name.length then p.name.length else a) = max a p.name.length := by
        rw [Nat.max_def]
        by_cases h : a < p.name.length
        · rw [if_pos h, if_pos (Nat.le_of_lt h)]
        · rw [if_neg h]
          by_cases h2 : a ≤ p.name.length
          · have he : a = p.name.length := by omega
            rw [if_pos h2, he]
          · rw [if_neg h2]
      rw [hif, Nat.max_assoc]
  have := key plugin_list 0
  unfold length_max_of
  rw [this, Nat.zero_max]

theorem name_length_le_longestName (plugin_list : List Plugin) (p : Plugin)
    (h : p ∈ plugin_list) : p.name.length ≤ longestName plugin_list := by
  induction plugin_list with
  | nil => cases h
  | cons q qs ih =>
    rw [longestName_cons]
    rcases List.mem_cons.mp h with h | h
    · rw [h]; exact Nat.le_max_left _ _
    · exact Nat.le_trans (ih h) (Nat.le_max_right _ _)

theorem plugin_lines_eq_map (length_max : Nat) :
    ∀ plugin_list : List Plugin,
      plugin_lines length_max plugin_list =
        plugin_list.map (fun p => plugin_line length_max p) := by
  intro plugin_list
  induction plugin_list with
  | nil => rfl
  | cons p ps ih => simp [plugin_lines, ih]

/-! ### Concrete inputs used by the claim theorems and witnesses -/

/-- Two descriptors with the same pattern, for exercising the tie-break. -/
def tiePluginA : Plugin := ⟨"a", "descA", some "FOO", fun _ _ _ => (0, [])⟩

/-- Second descriptor of the tie-break pair. -/
def tiePluginB : Plugin := ⟨"b", "descB", some "FOO BAR", fun _ _ _ => (0, [])⟩

/-- A descriptor whose pattern specification holds a TAB between two
fragments. -/
def tabPlugin : Plugin := ⟨"tab", "descTab", some "a\tb", fun _ _ _ => (0, [])⟩

/-- A descriptor with no pattern specification (`.regex` absent). -/
def noRegexPlugin : Plugin := ⟨"n", "descN", none, fun _ _ _ => (0, [])⟩

/-- An engine on which the pattern "(" fails to compile (as it does under
POSIX regcomp) and every other pattern matches as a literal substring. -/
def failingCompileEngine : RegexEngine :=
  ⟨fun pat => !(pat == "("), fun pattern string => subMatch pattern.data string.data⟩

/-- A transport whose instrument answers every identity query with "X". -/
def probeEnvX : LxiEnv := ⟨fun _ _ => some 3, fun _ _ _ => some ['X']⟩

/-- A transport whose instrument reports a Siglent SDM3055 identity (with a
trailing newline) and then returns a two-byte image. -/
def envSdm3055 : LxiEnv :=
  ⟨fun _ _ => some 7,
   fun _ maxBytes _ =>
     if maxBytes == ID_LENGTH_MAX then
       some ("SIGLENT TECHNOLOGIES Siglent Technologies SDM3055\n".data)
     else some ['B', 'M']⟩

/-! ### The claims -/

/-- C1: in autodetect mode the selector scans the registry in registration
order keeping a running best that is replaced only on a strictly greater
score, so a selected winner has a positive score, no registered descriptor
scores above it, and every earlier-registered descriptor scores strictly
below it — equal positive scores keep the earlier-registered descriptor and
a descriptor with score 0 is never selected. -/
theorem winner_needs_strictly_greater_score (eng : RegexEngine)
    (registry : List Plugin) (ident : String) (w : Nat)
    (hw : plugin_winner eng registry ident = some w) :
    0 < scoreAt eng registry ident w ∧
    (∀ j, scoreAt eng registry ident j ≤ scoreAt eng registry ident w) ∧
    (∀ j, j < w → scoreAt eng registry ident j < scoreAt eng registry ident w) := by
  obtain ⟨_, h1, h2, h3⟩ := plugin_winner_spec eng registry ident w hw
  exact ⟨h1, h2, h3⟩

theorem winner_needs_strictly_greater_score_witness :
    0 < scoreAt substrEngine [tiePluginA, tiePluginB] "FOO BAR BAZ" 1 ∧
    (∀ j, scoreAt substrEngine [tiePluginA, tiePluginB] "FOO BAR BAZ" j ≤
      scoreAt substrEngine [tiePluginA, tiePluginB] "FOO BAR BAZ" 1) ∧
    (∀ j, j < 1 → scoreAt substrEngine [tiePluginA, tiePluginB] "FOO BAR BAZ" j <
      scoreAt substrEngine [tiePluginA, tiePluginB] "FOO BAR BAZ" 1) :=
  winner_needs_strictly_greater_score substrEngine [tiePluginA, tiePluginB]
    "FOO BAR BAZ" 1 (by decide)

/-- C2 counterexample: on the descriptor whose pattern specification is
"a" TAB "b" and the identity "a b", the matcher's score is 0 (the strtok
split is on the space character only, so the single token is the whole
specification and does not match), while 2 of the whitespace-separated
fragments individually match — the claim's whitespace-splitting count
disagrees with the code. -/
theorem whitespace_split_scoring_refuted :
    scoreP substrEngine tabPlugin "a b" = 0 ∧
    (wsTokens "a\tb").countP (fun t => regex_match substrEngine "a b" t) = 2 ∧
    scoreP substrEngine tabPlugin "a b" ≠
      (wsTokens "a\tb").countP (fun t => regex_match substrEngine "a b" t) := by
  decide

/-- C2 (amended to the space character as the only separator): for every
descriptor with a present pattern specification and every identity string,
the score equals the number of space-separated fragments that individually
match, and reordering the fragments never changes the count. -/
theorem score_counts_space_separated_fragments (eng : RegexEngine) (p : Plugin)
    (spec : String) (hspec : p.regex = some spec) (ident : String) :
    scoreP eng p ident =
      (strtokTokens spec).countP (fun t => regex_match eng ident t) ∧
    (∀ l, (strtokTokens spec).Perm l →
      l.countP (fun t => regex_match eng ident t) =
        (strtokTokens spec).countP (fun t => regex_match eng ident t)) := by
  constructor
  · unfold scoreP
    rw [hspec]
    have := matchLoop_eq_countP eng ident (strtokTokens spec) 0
    simpa using this
  · intro l hl
    exact (hl.countP_eq _).symm

theorem score_counts_space_separated_fragments_witness :
    tabPlugin.regex = some "a\tb" ∧
    (scoreP substrEngine tabPlugin "a b" =
      (strtokTokens "a\tb").countP (fun t => regex_match substrEngine "a b" t) ∧
    (∀ l, (strtokTokens "a\tb").Perm l →
      l.countP (fun t => regex_match substrEngine "a b" t) =
        (strtokTokens "a\tb").countP (fun t => regex_match substrEngine "a b" t))) :=
  ⟨rfl, score_counts_space_separated_fragments substrEngine tabPlugin "a\tb" rfl "a b"⟩

/-- C3: evaluating the embedded flow at caller timeout 5 in autodetect mode
against a responding Siglent SDM3055: the identity query's connect, send and
receive are made with timeout 1 — the value of the C expression
`timeout != 0` passed at the `get_device_id(address, id, timeout != 0)`
call — while the selected plugin's exchange receives the caller's 5.  The
user-supplied timeout is therefore not passed through unchanged to every
transport call of the invocation. -/
theorem identity_query_timeout_not_propagated :
    screenshot substrEngine envSdm3055 [siglent_sdm3000] "10.0.0.5" "" 5 =
      (ScreenshotOutcome.done 0,
       [TransportCall.connect "10.0.0.5" 1,
        TransportCall.send 7 "*IDN?" 1,
        TransportCall.receive 7 ID_LENGTH_MAX 1,
        TransportCall.connect "10.0.0.5" 5,
        TransportCall.send 7 "scdp" 5,
        TransportCall.receive 7 IMAGE_SIZE_MAX 5,
        TransportCall.disconnect 7]) := by
  decide

/-- C4: a pattern fragment that fails to compile is treated as not matching
— regex_match returns false, it raises nothing (it is a total function) —
and a malformed fragment sitting anywhere in the token list contributes 0 to
the score while the remaining fragments are still counted, so one compile
failure never prevents scoring the rest. -/
theorem malformed_fragment_scores_nothing (eng : RegexEngine) (pat : String)
    (hc : eng.compile pat = false) (ident : String) (l1 l2 : List String) :
    regex_match eng ident pat = false ∧
    matchLoop eng ident (l1 ++ pat :: l2) 0 =
      matchLoop eng ident l1 0 + matchLoop eng ident l2 0 := by
  have hm : regex_match eng ident pat = false := by
    unfold regex_match
    rw [hc]
    simp
  refine ⟨hm, ?_⟩
  rw [matchLoop_eq_countP, matchLoop_eq_countP, matchLoop_eq_countP]
  simp [List.countP_append, List.countP_cons, hm]

theorem malformed_fragment_scores_nothing_witness :
    failingCompileEngine.compile "(" = false ∧
    (regex_match failingCompileEngine "abc" "(" = false ∧
    matchLoop failingCompileEngine "abc" (["a"] ++ "(" :: ["b"]) 0 =
      matchLoop failingCompileEngine "abc" ["a"] 0 +
        matchLoop failingCompileEngine "abc" ["b"] 0) :=
  ⟨by decide,
   malformed_fragment_scores_nothing failingCompileEngine "(" (by decide) "abc"
     ["a"] ["b"]⟩

/-- C5: a descriptor whose pattern specification is absent scores 0 against
every identity string and is never the index the autodetect scan selects. -/
theorem absent_pattern_never_selected (eng : RegexEngine) (ident : String)
    (registry : List Plugin) (i : Nat) (p : Plugin)
    (hp : registry.get? i = some p) (hnone : p.regex = none) :
    scoreP eng p ident = 0 ∧ plugin_winner eng registry ident ≠ some i := by
  have hzero : scoreP eng p ident = 0 := by
    unfold scoreP
    rw [hnone]
  refine ⟨hzero, ?_⟩
  intro hw
  obtain ⟨_, hpos, _, _⟩ := plugin_winner_spec eng registry ident i hw
  have heq : scoreAt eng registry ident i = scoreP eng p ident := by
    unfold scoreAt
    rw [List.getD_eq_getElem?_getD, ← List.get?_eq_getElem?, hp]
    rfl
  rw [heq, hzero] at hpos
  exact Nat.lt_irrefl 0 hpos

theorem absent_pattern_never_selected_witness :
    ([noRegexPlugin].get? 0 = some noRegexPlugin ∧ noRegexPlugin.regex = none) ∧
    (scoreP substrEngine noRegexPlugin "x" = 0 ∧
      plugin_winner substrEngine [noRegexPlugin] "x" ≠ some 0) :=
  ⟨⟨rfl, rfl⟩,
   absent_pattern_never_selected substrEngine "x" [noRegexPlugin] 0 noRegexPlugin
     rfl rfl⟩

/-- C6: in autodetect mode, when the identity query succeeds but every
registered descriptor scores 0 against the identity string, nothing is
selected and the invocation ends on the fatal could-not-autodetect
diagnostic (the exit(EXIT_FAILURE) path instructing the user to specify a
plugin name manually); the transport trace holds only the identity query's
calls — no plugin is dispatched. -/
theorem no_positive_score_fails_fatally (eng : RegexEngine) (env : LxiEnv)
    (registry : List Plugin) (address : String) (timeout : Int)
    (ident : List Char) (calls : List TransportCall)
    (haddr : ¬ address.length = 0)
    (hq : get_device_id env address (if timeout ≠ 0 then 1 else 0) =
      (some ident, calls))
    (hscore : ∀ j, j < registry.length →
      scoreAt eng registry (String.mk ident) j = 0) :
    screenshot eng env registry address "" timeout =
      (ScreenshotOutcome.fatalNoAutodetect, calls) := by
  have hwin := plugin_winner_eq_none eng registry (String.mk ident) hscore
  unfold screenshot
  rw [if_neg haddr]
  rw [if_pos (by rfl)]
  rw [hq]
  simp only []
  rw [hwin]

theorem no_positive_score_fails_fatally_witness :
    get_device_id probeEnvX "10.0.0.5" (if (5 : Int) ≠ 0 then 1 else 0) =
      (some ['X'],
       [TransportCall.connect "10.0.0.5" 1, TransportCall.send 3 "*IDN?" 1,
        TransportCall.receive 3 ID_LENGTH_MAX 1]) ∧
    screenshot substrEngine probeEnvX [siglent_sdm3000] "10.0.0.5" "" 5 =
      (ScreenshotOutcome.fatalNoAutodetect,
       [TransportCall.connect "10.0.0.5" 1, TransportCall.send 3 "*IDN?" 1,
        TransportCall.receive 3 ID_LENGTH_MAX 1]) :=
  ⟨by decide,
   no_positive_score_fails_fatally substrEngine probeEnvX [siglent_sdm3000]
     "10.0.0.5" 5 ['X']
     [TransportCall.connect "10.0.0.5" 1, TransportCall.send 3 "*IDN?" 1,
      TransportCall.receive 3 ID_LENGTH_MAX 1]
     (by decide) (by decide) (by decide)⟩

/-- C7: in explicit mode the lookup returns the first registered descriptor
whose name equals the supplied name (String equality: case-sensitive and
exact, as strcmp); when the name is absent the invocation ends on the fatal
unknown-plugin diagnostic with an empty transport trace, and when it is
found the trace holds only the dispatched plugin's own calls — in either
case the identity query is skipped entirely and no transport call precedes
the lookup. -/
theorem explicit_name_exact_lookup (eng : RegexEngine) (env : LxiEnv)
    (registry : List Plugin) (address plugin_name : String) (timeout : Int)
    (haddr : ¬ address.length = 0) (hname : ¬ plugin_name.length = 0) :
    findByName registry plugin_name =
      registry.find? (fun p => p.name == plugin_name) ∧
    (findByName registry plugin_name = none →
      screenshot eng env registry address plugin_name timeout =
        (ScreenshotOutcome.fatalUnknownPlugin, [])) ∧
    (∀ p, findByName registry plugin_name = some p →
      screenshot eng env registry address plugin_name timeout =
        (ScreenshotOutcome.done (p.screenshot env address timeout).1,
         (p.screenshot env address timeout).2)) := by
  refine ⟨findByName_eq_find? plugin_name registry, ?_, ?_⟩
  · intro hnf
    unfold screenshot
    rw [if_neg haddr, if_neg hname, hnf]
  · intro p hp
    unfold screenshot
    rw [if_neg haddr, if_neg hname, hp]

theorem explicit_name_exact_lookup_witness :
    screenshot substrEngine probeEnvX [siglent_sdm3000] "10.0.0.5" "zzz" 5 =
      (ScreenshotOutcome.fatalUnknownPlugin, []) :=
  (explicit_name_exact_lookup substrEngine probeEnvX [siglent_sdm3000]
    "10.0.0.5" "zzz" 5 (by decide) (by decide)).2.1 rfl

/-- C8: for a nonempty received identity buffer (holding no NUL byte, being
text), the strip removes the final character exactly when it is a newline
and otherwise leaves the identity unchanged. -/
theorem trailing_newline_stripped (buf : List Char) (hne : buf ≠ [])
    (hnul : NUL ∉ buf) :
    (buf.getLast? = some '\n' → identityOf buf = buf.dropLast) ∧
    (buf.getLast? ≠ some '\n' → identityOf buf = buf) := by
  constructor
  · intro hl
    unfold identityOf stripTrailingNewline
    rw [if_pos hl]
    exact cstrOf_set_last buf hne hnul
  · intro hl
    unfold identityOf stripTrailingNewline
    rw [if_neg hl]
    exact cstrOf_of_no_nul buf hnul

theorem trailing_newline_stripped_witness :
    ((String.data "ab\n").getLast? = some '\n' →
      identityOf (String.data "ab\n") = (String.data "ab\n").dropLast) ∧
    ((String.data "ab\n").getLast? ≠ some '\n' →
      identityOf (String.data "ab\n") = String.data "ab\n") :=
  trailing_newline_stripped (String.data "ab\n") (by decide) (by decide)

/-- C9: the listing starts with a header of longestName−4 leading spaces
(truncated Nat subtraction — the C int padding loop runs zero times when the
difference is negative) followed by `Name   Description`, then one line per
descriptor in registration order, each line being padding spaces, the name
— padding and name together occupying exactly the longest-name column width
(right alignment) — then exactly three spaces and the description. -/
theorem listing_layout (plugin_list : List Plugin) :
    screenshot_list_plugins plugin_list =
      (spaces (longestName plugin_list - 4) ++ "Name   Description") ::
        plugin_list.map (fun p =>
          spaces (longestName plugin_list - p.name.length) ++ p.name ++ "   " ++
            p.description) ∧
    (∀ p, p ∈ plugin_list →
      (spaces (longestName plugin_list - p.name.length) ++ p.name).length =
        longestName plugin_list) := by
  constructor
  · unfold screenshot_list_plugins
    rw [length_max_of_eq, plugin_lines_eq_map]
    rfl
  · intro p hp
    rw [String.length_append, spaces_length]
    have := name_length_le_longestName plugin_list p hp
    omega

theorem listing_layout_witness :
    siglent_sdm3000 ∈ [siglent_sdm3000] ∧
    (spaces (longestName [siglent_sdm3000] - siglent_sdm3000.name.length) ++
      siglent_sdm3000.name).length = longestName [siglent_sdm3000] :=
  ⟨List.mem_cons_self siglent_sdm3000 [],
   (listing_layout [siglent_sdm3000]).2 siglent_sdm3000
     (List.mem_cons_self siglent_sdm3000 [])⟩

/-- C10: for every receive the error check accepts (it rejects only a
negative length), the trailing-newline strip reads buffer index length−1;
that access lies within the received data exactly when at least one byte
was received, and a 0-byte receive puts the read at index −1 — a case the
length<0 check does not exclude. -/
theorem strip_read_index_bounds (len : Int)
    (hok : receive_length_error len = false) :
    (accessInReceivedData (strip_read_index len) len ↔ 1 ≤ len) ∧
    (len = 0 → strip_read_index len = -1 ∧ receive_length_error len = false) := by
  have hnn : ¬ len < 0 := by
    unfold receive_length_error at hok
    simpa using hok
  constructor
  · unfold accessInReceivedData strip_read_index
    constructor
    · intro h
      omega
    · intro h
      exact ⟨by omega, by omega⟩
  · intro h
    subst h
    exact ⟨by decide, hok⟩

theorem strip_read_index_bounds_witness :
    receive_length_error 0 = false ∧
    ((accessInReceivedData (strip_read_index 0) 0 ↔ 1 ≤ (0 : Int)) ∧
     ((0 : Int) = 0 → strip_read_index 0 = -1 ∧ receive_length_error 0 = false)) :=
  ⟨by decide, strip_read_index_bounds 0 (by decide)⟩

end LxiScreenshot
